import Mathlib

set_option linter.unusedVariables false

/-!
Shallow embedding of the live-translation server's transcription-validation
and translation pipeline (src/server.js, plus the historical variant kept as
src/unnamed/part_000), together with theorems settling the specification
claims about it.

Modelling conventions:
* JavaScript strings are modelled as Lean `String`/`List Char`; `.length`,
  regex character classes and `toLowerCase` are modelled per code point
  (the code only inspects Basic-Multilingual-Plane characters).
* `toLowerCase` is modelled by `jsToLower`, the restriction of Unicode
  simple lowercasing to ASCII and Latin-1 — the only alphabets the server's
  regexes inspect; every other character is fixed.
* Fallible external calls (Whisper, GPT detection, per-target translation)
  are oracles packaged in a `Caps` structure, returning `Except Unit`.
  `throw`/`reject` is `.error ()`; the pipeline's `try`/`catch` structure
  becomes explicit `match`es.
* Every capability invocation is logged in a `Call` list so that claims of
  the form "no detection/translation call is made" are statable.
* The JavaScript float comparison `letterCount / totalLength < 0.3` is
  modelled exactly on rationals as `10 * letterCount < 3 * totalLength`.
-/

/-! ### Character classes (regex character classes from the source) -/

/-- JS `\s` (the whitespace class used by `split(/\s+/)` and `trim()`). -/
def isSpaceJS (c : Char) : Bool :=
  c.toNat = 32 ∨ c.toNat = 9 ∨ c.toNat = 10 ∨ c.toNat = 11 ∨ c.toNat = 12 ∨
  c.toNat = 13 ∨ c.toNat = 160 ∨ c.toNat = 5760 ∨
  (8192 ≤ c.toNat ∧ c.toNat ≤ 8202) ∨ c.toNat = 8232 ∨ c.toNat = 8233 ∨
  c.toNat = 8239 ∨ c.toNat = 8287 ∨ c.toNat = 12288 ∨ c.toNat = 65279

/-- JS line terminators: the characters regex `.` does NOT match. -/
def isLineTerm (c : Char) : Bool :=
  c.toNat = 10 ∨ c.toNat = 13 ∨ c.toNat = 8232 ∨ c.toNat = 8233

/-- Regex `[0-9]` / `\d`. -/
def isDigitCh (c : Char) : Bool := 48 ≤ c.toNat ∧ c.toNat ≤ 57

/-- Regex `[a-zA-Z]`. -/
def isAsciiLetter (c : Char) : Bool :=
  (97 ≤ c.toNat ∧ c.toNat ≤ 122) ∨ (65 ≤ c.toNat ∧ c.toNat ≤ 90)

/-- Regex `\w` = `[A-Za-z0-9_]`. -/
def isWordCh (c : Char) : Bool := isAsciiLetter c ∨ isDigitCh c ∨ c.toNat = 95

/-- Regex `[一-鿿]` (CJK unified ideographs), the `hasChinese` class. -/
def isCJK (c : Char) : Bool := 19968 ≤ c.toNat ∧ c.toNat ≤ 40959

/-- Regex `[぀-ゟ゠-ヿ]` (hiragana and katakana), the
`hasJapanese` class of the part_000 variant. -/
def isKana (c : Char) : Bool := 12352 ≤ c.toNat ∧ c.toNat ≤ 12543

/-- The letter class of the symbol-density check:
`[a-zA-ZÀ-ſ一-鿿]`. -/
def isLetterClass (c : Char) : Bool :=
  isAsciiLetter c ∨ (192 ≤ c.toNat ∧ c.toNat ≤ 383) ∨ isCJK c

/-! ### `toLowerCase` model -/

/-- The (uppercase, lowercase) pairs of ASCII and Latin-1: the restriction of
JS `String.prototype.toLowerCase` to the alphabets the server inspects. -/
def lowerPairs : List (Char × Char) :=
  [('A', 'a'), ('B', 'b'), ('C', 'c'), ('D', 'd'), ('E', 'e'), ('F', 'f'),
   ('G', 'g'), ('H', 'h'), ('I', 'i'), ('J', 'j'), ('K', 'k'), ('L', 'l'),
   ('M', 'm'), ('N', 'n'), ('O', 'o'), ('P', 'p'), ('Q', 'q'), ('R', 'r'),
   ('S', 's'), ('T', 't'), ('U', 'u'), ('V', 'v'), ('W', 'w'), ('X', 'x'),
   ('Y', 'y'), ('Z', 'z'),
   ('À', 'à'), ('Á', 'á'), ('Â', 'â'), ('Ã', 'ã'), ('Ä', 'ä'), ('Å', 'å'),
   ('Æ', 'æ'), ('Ç', 'ç'), ('È', 'è'), ('É', 'é'), ('Ê', 'ê'), ('Ë', 'ë'),
   ('Ì', 'ì'), ('Í', 'í'), ('Î', 'î'), ('Ï', 'ï'), ('Ð', 'ð'), ('Ñ', 'ñ'),
   ('Ò', 'ò'), ('Ó', 'ó'), ('Ô', 'ô'), ('Õ', 'õ'), ('Ö', 'ö'), ('Ø', 'ø'),
   ('Ù', 'ù'), ('Ú', 'ú'), ('Û', 'û'), ('Ü', 'ü'), ('Ý', 'ý'), ('Þ', 'þ')]

/-- Per-character model of JS `toLowerCase` (identity outside the table). -/
def jsToLower (c : Char) : Char := ((lowerPairs.lookup c).getD c)

/-- JS `toLowerCase` on a whole string. -/
def jsLower (s : String) : String := ⟨s.data.map jsToLower⟩

/-! ### List helpers modelling string primitives -/

/-- JS `String.prototype.trim`: strip leading and trailing `\s` characters. -/
def jsTrim (l : List Char) : List Char :=
  ((l.dropWhile isSpaceJS).reverse.dropWhile isSpaceJS).reverse

/-- String-level `trim`, as used by `transcription.trim()`. -/
def jsTrimStr (s : String) : String := ⟨jsTrim s.data⟩

/-- JS `String.prototype.includes pat` / regex substring test. -/
def containsSubstr (l : List Char) (pat : List Char) : Bool :=
  match l with
  | [] => pat.isEmpty
  | _ :: rest => pat.isPrefixOf l || containsSubstr rest pat

/-- String-level `includes`. -/
def strContains (s pat : String) : Bool := containsSubstr s.data pat.data

/-- JS `String.prototype.startsWith`. -/
def strStartsWith (s pat : String) : Bool := pat.data.isPrefixOf s.data

/-- `replace(/[.,!?;:]+$/, '')`: drop the maximal trailing run of sentence
punctuation. -/
def dropTrailingPunct (l : List Char) : List Char :=
  (l.reverse.dropWhile (fun c => c ∈ ['.', ',', '!', '?', ';', ':'])).reverse

/-- `split(/\s+/).filter(w => w.length > 0)`: maximal non-whitespace runs.
`acc` holds the (reversed) word currently being read. -/
def splitWordsAux : List Char → List Char → List (List Char)
  | [], acc => if acc.isEmpty then [] else [acc.reverse]
  | c :: rest, acc =>
    if isSpaceJS c then
      if acc.isEmpty then splitWordsAux rest []
      else acc.reverse :: splitWordsAux rest []
    else splitWordsAux rest (c :: acc)

/-- The word list of a cleaned transcription. -/
def splitWords (l : List Char) : List (List Char) := splitWordsAux l []

/-! ### Language-code normalisation (`normalizeLanguageCode`,
`isSupportedLanguage`, src/server.js lines 433-456) -/

/-- `normalizeLanguageCode`: `null`/empty → `null`; lower-case; any code
starting with `zh` collapses to `zh`. `none` models a JS falsy code. -/
def normalizeLanguageCode : Option String → Option String
  | none => none
  | some s =>
    if s = "" then none
    else
      let normalized := jsLower s
      if strStartsWith normalized "zh" then some "zh" else some normalized

/-- `isSupportedLanguage`: normalise, then membership in `['en','it','zh']`. -/
def isSupportedLanguage : Option String → Bool
  | none => false
  | some s =>
    if s = "" then false
    else
      match normalizeLanguageCode (some s) with
      | none => false
      | some n => n = "en" ∨ n = "it" ∨ n = "zh"

/-- `TARGET_LANGUAGES` (src/server.js line 49): fixed configuration. -/
def TARGET_LANGUAGES : List String := ["it", "zh", "en"]

/-! ### Regex pattern machinery for the hallucination list -/

/-- An apostrophe character, used to build pattern literals. -/
def apc : Char := Char.ofNat 39

/-- An apostrophe as a one-character string. -/
def ap : String := String.singleton apc

/-- Scan for `\d{1,2}:\d{2}` — equivalent, as a substring test, to the
window `digit ':' digit digit`. -/
def hasTimePattern : List Char → Bool
  | a :: b :: c :: d :: rest =>
      (isDigitCh a && b = ':' && isDigitCh c && isDigitCh d) ||
      hasTimePattern (b :: c :: d :: rest)
  | _ => false

/-- After an opening `[`, does `]` occur before any line terminator?
(`.` in `/\[.*\]/` does not cross line terminators.) -/
def closesBracket : List Char → Bool
  | [] => false
  | c :: rest =>
    if c = ']' then true
    else if isLineTerm c then false
    else closesBracket rest

/-- Regex `/\[.*\]/` as a substring test. -/
def hasBracketPair : List Char → Bool
  | [] => false
  | c :: rest => (c = '[' && closesBracket rest) || hasBracketPair rest

/-- Regex `/(.)\1{4,}/`: some non-line-terminator character repeated five
or more times consecutively. -/
def hasRepeatRun : List Char → Bool
  | a :: b :: c :: d :: e :: rest =>
      (!(isLineTerm a) && a = b && b = c && c = d && d = e) ||
      hasRepeatRun (b :: c :: d :: e :: rest)
  | _ => false

/-- Regex `/@\w+/` and `/#\w+/`: `mark` followed by a word character. -/
def hasMarkWord (mark : Char) : List Char → Bool
  | a :: b :: rest => (a = mark && isWordCh b) || hasMarkWord mark (b :: rest)
  | _ => false

/-- Does `pat` occur after a (possibly empty) run of non-line-terminator
characters? Models the `.*pat` tail of a regex. -/
def followedNoNewline (pat : List Char) : List Char → Bool
  | [] => pat.isEmpty
  | c :: rest =>
      pat.isPrefixOf (c :: rest) ||
      (!(isLineTerm c) && followedNoNewline pat rest)

/-- Regex `/p1.*p2/` as a substring test (`.` not crossing line
terminators). -/
def seqPat (p1 p2 : List Char) : List Char → Bool
  | [] => false
  | c :: rest =>
      (p1.isPrefixOf (c :: rest) &&
        followedNoNewline p2 (List.drop p1.length (c :: rest))) ||
      seqPat p1 p2 rest

/-- Regex `/^thank you. bye bye$/i` over the (already lower-cased) cleaned
text: 18 characters, the given prefix and suffix, any non-line-terminator
character in the middle. -/
def thankYouByeBye (c : List Char) : Bool :=
  c.length = 18 && (String.data "thank you").isPrefixOf c &&
  (String.data " bye bye").isSuffixOf c &&
  (match c.drop 9 with
   | ch :: _ => !(isLineTerm ch)
   | [] => false)

/-! ### The hallucination pattern list (src/server.js lines 180-286).
The cleaned text is already lower-case, so each `/…/i` pattern is matched
against its lower-cased literal; the `for` loop rejects iff ANY pattern
matches, so the patterns are grouped by matcher shape below. -/

/-- Whole-string (`/^…$/i`) filler-word patterns. -/
def exactPats : List (List Char) :=
  (["beep", "hi", "um", "uh", "oh", "ah", "4k", "mm-hmm", "huh", "mm",
    "hmm", "okay bye", "bye bye", "thank you", "you know", "i mean"]).map
    String.data

/-- Substring (`/…/i`) patterns: promotional closers, social-media and
caption artifacts, and the CJK spam phrases. -/
def substrPats : List (List Char) :=
  (["please subscribe and like", "thank you for watching",
    "thanks for watching", "thank you for listening", "thanks for listening",
    "share this video", "subscribe", "like and subscribe",
    "don" ++ ap ++ "t forget to", "visit our website", "follow us",
    "check out", "click the link", "smash that like button", "ring the bell",
    "that" ++ ap ++ "s it for this video", "hope you enjoyed it",
    "see you in the next one",
    "i" ++ ap ++ "ll see you in the next",
    "if you have any questions or comments",
    "please post them in the comments", "post them in the comments section",
    "leave a comment below", "let me know in the comments", "字幕",
    "that" ++ ap ++ "s all for today", "that" ++ ap ++ "s all for now",
    "until next time", "see you next time", "catch you later", "stay tuned",
    "coming up next", "thanks for tuning in", "thanks for joining",
    "hope to see you", "don" ++ ap ++ "t forget to hit", "make sure to hit",
    "(music)", "[music]", "www.", ".com", "http", "caption", "subtitle",
    "closed caption", "viewer discretion is advised", "请不吝点赞", "订阅",
    "转发", "打赏"]).map String.data

/-- The emoji alternation `/📢|🎵|♪|📱|💡|🔔|👍|❤️|💯/`. -/
def emojiPats : List (List Char) :=
  (["📢", "🎵", "♪", "📱", "💡", "🔔", "👍", "❤️", "💯"]).map String.data

/-- Does the cleaned text match any pattern of the hallucination list?
(The source's `for` loop over `hallucination_patterns`.) -/
def matchesHallucination (c : List Char) : Bool :=
  exactPats.any (fun p => c = p) ||
  thankYouByeBye c ||
  seqPat (String.data "if you enjoyed") (String.data "subscribe") c ||
  substrPats.any (fun p => containsSubstr c p) ||
  hasTimePattern c || hasBracketPair c ||
  emojiPats.any (fun p => containsSubstr c p) ||
  hasMarkWord '@' c || hasMarkWord '#' c ||
  hasRepeatRun c

/-! ### The transcription validator (`isValidTranscription`,
src/server.js lines 153-318) -/

/-- Script-membership tests (lines 169-171). `hasItalian` is `[a-zA-Z]`
plus the accented letters; it subsumes `hasEnglish` but both are kept as
in the source. -/
def italianAccents : List Char :=
  String.data "àáâäèéêëìíîïòóôöùúûüÀÁÂÄÈÉÊËÌÍÎÏÒÓÔÖÙÚÛÜ"

/-- `/[a-zA-Z]/.test` over the cleaned text. -/
def hasEnglish (l : List Char) : Bool := l.any isAsciiLetter

/-- `/[a-zA-Z...accents]/.test` over the cleaned text. -/
def hasItalian (l : List Char) : Bool :=
  l.any (fun c => isAsciiLetter c ∨ c ∈ italianAccents)

/-- `/[一-鿿]/.test` over the cleaned text. -/
def hasChinese (l : List Char) : Bool := l.any isCJK

/-- The cleaned text: `text.trim().toLowerCase().replace(/[.,!?;:]+$/,'')`. -/
def cleanTextOf (s : String) : List Char :=
  dropTrailingPunct ((jsTrim s.data).map jsToLower)

/-- Is a single cleaned word purely numeric (`/^[0-9]+$/`)? -/
def isNumericWord (w : List Char) : Bool := !w.isEmpty && w.all isDigitCh

/-- `isValidTranscription` (src/server.js lines 153-318). `none` models a
JS value that is absent or not a string; `true` is the spec's `Accepted`,
`false` its `Rejected`. -/
def isValidTranscription : Option String → Bool
  | none => false
  | some s =>
    if s = "" then false
    else
      let c := cleanTextOf s
      if c.length < 2 then false
      else if !(hasEnglish c || hasItalian c || hasChinese c) then false
      else if matchesHallucination c then false
      else if 10 * (c.countP isLetterClass) < 3 * c.length then false
      else
        match splitWords c with
        | [w] => !(w.length < 2 || isNumericWord w)
        | _ => true

/-! ### External capabilities and the call log -/

/-- One external capability invocation, for stating "no call is made". -/
inductive Call
  | transcribe
  | detect
  | translate (target : String)
deriving DecidableEq, Repr

/-- Oracle answers of the three external capabilities for one utterance:
Whisper's raw transcript, GPT's raw language-detection reply, and the
per-target translation. `.error ()` models the call throwing/rejecting. -/
structure Caps where
  transcribeRaw : Except Unit String
  detectRaw : Except Unit String
  translateRaw : String → Except Unit String

/-! ### Transcription (`transcribeAudio`, src/server.js lines 121-150) -/

/-- The `language` request parameter forwarded to Whisper: only a hint that
is truthy and not `'auto'` is forwarded (lines 130-133). -/
def transcriptionLanguageParam : Option String → Option String
  | none => none
  | some l => if l ≠ "" ∧ l ≠ "auto" then some l else none

/-- `transcribeAudio`: invoke Whisper, then filter through
`isValidTranscription`; invalid transcriptions become `null` (`none`),
capability failure rethrows. -/
def transcribeAudio (caps : Caps) : Except Unit (Option String) × List Call :=
  match caps.transcribeRaw with
  | .error e => (.error e, [Call.transcribe])
  | .ok t =>
    (if isValidTranscription (some t) then .ok (some t) else .ok none,
     [Call.transcribe])

/-! ### Language detection (`detectLanguageWithOpenAI`,
src/server.js lines 362-392) -/

/-- The cleanup of GPT's raw reply (lines 376-379): trim, lower-case,
then `replace(/[^a-z-]/g, '')`. -/
def gptCleanReply (raw : String) : List Char :=
  ((jsTrim raw.data).map jsToLower).filter
    (fun c => (97 ≤ c.toNat ∧ c.toNat ≤ 122) ∨ c = '-')

/-- The post-processing of GPT's raw reply (lines 376-384): the cleanup,
then the three sequential substring rewrites to `en` / `it` / `zh`. -/
def mapDetectedLang (raw : String) : String :=
  let d0 := gptCleanReply raw
  let d1 := if containsSubstr d0 (String.data "en") then String.data "en"
    else d0
  let d2 := if containsSubstr d1 (String.data "it") then String.data "it"
    else d1
  let d3 := if containsSubstr d2 (String.data "zh") ||
      containsSubstr d2 (String.data "chi") then String.data "zh"
    else d2
  ⟨d3⟩

/-- `detectLanguageWithOpenAI`: call GPT, post-process; failure rethrows. -/
def detectLanguageWithOpenAI (caps : Caps) :
    Except Unit String × List Call :=
  match caps.detectRaw with
  | .error e => (.error e, [Call.detect])
  | .ok raw => (.ok (mapDetectedLang raw), [Call.detect])

/-! ### Translation fan-out (`translateText`, src/server.js lines 321-359) -/

/-- The error sentinel written into a failed target's slot (line 351). -/
def translationErrorSentinel : String := "[Translation Error]"

/-- One iteration of the fan-out loop (lines 339-353): same language after
normalisation → the original text, no call; otherwise one translation call,
its failure caught and replaced by the sentinel. -/
def translateOne (caps : Caps) (text detected target : String) :
    (String × String) × List Call :=
  if normalizeLanguageCode (some detected) =
      normalizeLanguageCode (some target) then
    ((target, text), [])
  else
    match caps.translateRaw target with
    | .ok tr => ((target, tr), [Call.translate target])
    | .error _ => ((target, translationErrorSentinel), [Call.translate target])

/-- `translateText` (lines 321-359): detect the language (failure or an
unsupported/empty result → `null`), then build the translations map by
iterating over `TARGET_LANGUAGES`. The returned association list is in
insertion order; `sourceLanguage` is only the (dead) initial value of
`detectedLanguage`. -/
def translateText (caps : Caps) (text : String) (sourceLanguage : String) :
    Option (List (String × String) × String) × List Call :=
  match detectLanguageWithOpenAI caps with
  | (.error _, cs) => (none, cs)
  | (.ok lang, cs) =>
    if lang = "" then (none, cs)
    else if !(isSupportedLanguage (normalizeLanguageCode (some lang))) then
      (none, cs)
    else
      let slots := TARGET_LANGUAGES.map (translateOne caps text lang)
      (some (slots.map Prod.fst, lang), cs ++ (slots.map Prod.snd).flatten)

/-! ### The orchestrator (`handleAudioChunk`, src/server.js lines 77-118) -/

/-- What one utterance's run produced, as observable at the WebSocket:
either a `translation_result` payload, or one of the log-only outcomes,
or the `catch`-block error message. -/
inductive Outcome
  | translated (sourceLanguage sourceText : String)
      (translations : List (String × String))
  | unsupportedLanguage
  | noValidSpeech
  | processingError
deriving DecidableEq, Repr

/-- Result of one `handleAudioChunk` run: the outcome, whether
`fs.unlinkSync(tempFilePath)` was reached, and the external calls made. -/
structure RunResult where
  outcome : Outcome
  fileDeleted : Bool
  calls : List Call
deriving DecidableEq, Repr

/-- `handleAudioChunk`: write the temp file, transcribe, maybe translate,
send, and unlink — with the unlink inside the `try`, so a thrown
transcription error reaches the `catch` without deleting the file. -/
def handleAudioChunk (caps : Caps) : RunResult :=
  match transcribeAudio caps with
  | (.error _, cs) => ⟨Outcome.processingError, false, cs⟩
  | (.ok t, cs) =>
    match t with
    | some s =>
      if jsTrimStr s ≠ "" then
        match translateText caps s "auto" with
        | (some (tr, lang), cs2) =>
          if lang ≠ "" then
            ⟨Outcome.translated lang s tr, true, cs ++ cs2⟩
          else ⟨Outcome.unsupportedLanguage, true, cs ++ cs2⟩
        | (none, cs2) => ⟨Outcome.unsupportedLanguage, true, cs ++ cs2⟩
      else ⟨Outcome.noValidSpeech, true, cs⟩
    | none => ⟨Outcome.noValidSpeech, true, cs⟩

/-! ### The historical variant (src/unnamed/part_000)

Same server shape with a Google-Translate backend. Its validator differs:
no trailing-punctuation strip, an explicit Japanese-kana rejection, a
slightly different pattern list, and — because the file is stored with a
UTF-8/cp1252 double encoding — mojibake character literals in the Italian
class and the emoji alternation, reproduced here code point for code
point. -/

/-- The extra characters of the variant's `hasItalian` class
(`[a-zA-Z…]`), exactly as stored in the (double-encoded) source file. -/
def italianClassV : List Char :=
  [Char.ofNat 195, Char.ofNat 160, Char.ofNat 195, Char.ofNat 161,
   Char.ofNat 195, Char.ofNat 162, Char.ofNat 195, Char.ofNat 164,
   Char.ofNat 195, Char.ofNat 168, Char.ofNat 195, Char.ofNat 169,
   Char.ofNat 195, Char.ofNat 170, Char.ofNat 195, Char.ofNat 171,
   Char.ofNat 195, Char.ofNat 172, Char.ofNat 195, Char.ofNat 173,
   Char.ofNat 195, Char.ofNat 174, Char.ofNat 195, Char.ofNat 175,
   Char.ofNat 195, Char.ofNat 178, Char.ofNat 195, Char.ofNat 179,
   Char.ofNat 195, Char.ofNat 180, Char.ofNat 195, Char.ofNat 182,
   Char.ofNat 195, Char.ofNat 185, Char.ofNat 195, Char.ofNat 186,
   Char.ofNat 195, Char.ofNat 187, Char.ofNat 195, Char.ofNat 188,
   Char.ofNat 195, Char.ofNat 8364, Char.ofNat 195, Char.ofNat 195,
   Char.ofNat 8218, Char.ofNat 195, Char.ofNat 8222, Char.ofNat 195,
   Char.ofNat 710, Char.ofNat 195, Char.ofNat 8240, Char.ofNat 195,
   Char.ofNat 352, Char.ofNat 195, Char.ofNat 8249, Char.ofNat 195,
   Char.ofNat 338, Char.ofNat 195, Char.ofNat 195, Char.ofNat 381,
   Char.ofNat 195, Char.ofNat 195, Char.ofNat 8217, Char.ofNat 195,
   Char.ofNat 8220, Char.ofNat 195, Char.ofNat 8221, Char.ofNat 195,
   Char.ofNat 8211, Char.ofNat 195, Char.ofNat 8482, Char.ofNat 195,
   Char.ofNat 353, Char.ofNat 195, Char.ofNat 8250, Char.ofNat 195,
   Char.ofNat 339]

/-- Variant `hasItalian`. -/
def hasItalianV (l : List Char) : Bool :=
  l.any (fun c => isAsciiLetter c ∨ c ∈ italianClassV)

/-- Variant `/[぀-ゟ゠-ヿ]/.test` (the Japanese-kana rejection class,
part_000 line 177). -/
def hasJapaneseV (l : List Char) : Bool := l.any isKana

/-- Variant whole-string filler patterns (part_000 lines 192-213). -/
def exactPatsV : List (List Char) :=
  (["bye", "beep", "okay", "ok", "hi", "hello", "yeah", "yes", "no", "um",
    "uh", "oh", "ah", "okay bye", "bye bye", "thank you", "you know",
    "i mean", "right now", "of course"]).map String.data

/-- Variant substring patterns (part_000 lines 216-275). -/
def substrPatsV : List (List Char) :=
  (["please subscribe and like", "thank you for watching",
    "thanks for watching", "thank you for listening", "thanks for listening",
    "share this video", "subscribe", "like and subscribe",
    "don" ++ ap ++ "t forget to", "visit our website", "follow us",
    "check out", "click the link", "smash that like button", "ring the bell",
    "that" ++ ap ++ "s it for this video", "hope you enjoyed it",
    "see you in the next one",
    "i" ++ ap ++ "ll see you in the next",
    "if you have any questions or comments",
    "please post them in the comments", "post them in the comments section",
    "leave a comment below", "let me know in the comments",
    "that" ++ ap ++ "s all for today", "that" ++ ap ++ "s all for now",
    "until next time", "see you next time", "catch you later", "stay tuned",
    "coming up next", "thanks for tuning in", "thanks for joining",
    "hope to see you", "don" ++ ap ++ "t forget to hit", "make sure to hit",
    "(music)", "[music]", "www.", ".com", "http", "caption", "subtitle",
    "closed caption"]).map String.data

/-- Variant emoji alternation, mojibake code points as stored. -/
def emojiPatsV : List (List Char) :=
  [[Char.ofNat 240, Char.ofNat 376, Char.ofNat 8220, Char.ofNat 162],
   [Char.ofNat 240, Char.ofNat 376, Char.ofNat 381, Char.ofNat 181],
   [Char.ofNat 226, Char.ofNat 8482, Char.ofNat 170],
   [Char.ofNat 240, Char.ofNat 376, Char.ofNat 8220, Char.ofNat 177],
   [Char.ofNat 240, Char.ofNat 376, Char.ofNat 8217, Char.ofNat 161],
   [Char.ofNat 240, Char.ofNat 376, Char.ofNat 8221, Char.ofNat 8221],
   [Char.ofNat 240, Char.ofNat 376, Char.ofNat 8216],
   [Char.ofNat 226, Char.ofNat 164, Char.ofNat 239, Char.ofNat 184],
   [Char.ofNat 240, Char.ofNat 376, Char.ofNat 8217, Char.ofNat 175]]

/-- Variant hallucination pattern check (part_000 lines 190-287). -/
def matchesHallucinationV (c : List Char) : Bool :=
  exactPatsV.any (fun p => c = p) ||
  seqPat (String.data "if you enjoyed") (String.data "subscribe") c ||
  substrPatsV.any (fun p => containsSubstr c p) ||
  hasTimePattern c || hasBracketPair c ||
  emojiPatsV.any (fun p => containsSubstr c p) ||
  hasMarkWord '@' c || hasMarkWord '#' c ||
  hasRepeatRun c

/-- Variant cleaned text: `text.trim().toLowerCase()` only (no
trailing-punctuation strip, part_000 line 163). -/
def cleanTextVOf (s : String) : List Char := (jsTrim s.data).map jsToLower

/-- Variant `isValidTranscription` (part_000 lines 158-311). The kana
check sits between the length check and the supported-script check. -/
def isValidTranscriptionV : Option String → Bool
  | none => false
  | some s =>
    if s = "" then false
    else
      let c := cleanTextVOf s
      if c.length < 2 then false
      else if hasJapaneseV c then false
      else if !(hasEnglish c || hasItalianV c || hasChinese c) then false
      else if matchesHallucinationV c then false
      else if 10 * (c.countP isLetterClass) < 3 * c.length then false
      else
        match splitWords c with
        | [w] => !(w.length < 2 || isNumericWord w)
        | _ => true

/-! ### Variant translation backend (Google Translate) and orchestrator -/

/-- One external call in the variant. -/
inductive VCall
  | transcribe
  | google (target : String)
deriving DecidableEq, Repr

/-- One Google Translate response: the translated text and, when the
request carried no explicit source, the detected source language. -/
structure GoogleResult where
  translatedText : String
  detectedSourceLanguage : Option String
deriving DecidableEq, Repr

/-- Variant oracle answers: Whisper, and Google keyed by target language. -/
structure VCaps where
  transcribeRaw : Except Unit String
  google : String → String → Except Unit GoogleResult

/-- Variant `transcribeAudio` (part_000 lines 127-155). -/
def transcribeAudioV (caps : VCaps) :
    Except Unit (Option String) × List VCall :=
  match caps.transcribeRaw with
  | .error e => (.error e, [VCall.transcribe])
  | .ok t =>
    (if isValidTranscriptionV (some t) then .ok (some t) else .ok none,
     [VCall.transcribe])

/-- One iteration of the variant fan-out loop (part_000 lines 335-349). -/
def translateOneV (caps : VCaps) (text detected target : String) :
    (String × String) × List VCall :=
  if normalizeLanguageCode (some detected) =
      normalizeLanguageCode (some target) then
    ((target, text), [])
  else
    match caps.google detected target with
    | .ok r => ((target, r.translatedText), [VCall.google target])
    | .error _ =>
      ((target, translationErrorSentinel), [VCall.google target])

/-- Variant `translateText` (part_000 lines 314-355): one initial Google
call to `en` doubles as detection; a truthy `detectedSourceLanguage` is
normalised and gated on the supported set, a falsy one leaves
`detectedLanguage` at the caller's `sourceLanguage`. -/
def translateTextV (caps : VCaps) (text sourceLanguage : String) :
    Option (List (String × String) × String) × List VCall :=
  match caps.google sourceLanguage "en" with
  | .error _ => (none, [VCall.google "en"])
  | .ok r =>
    let fanout := fun (detected : String) =>
      let slots := TARGET_LANGUAGES.map (translateOneV caps text detected)
      (some (slots.map Prod.fst, detected),
       VCall.google "en" :: (slots.map Prod.snd).flatten)
    match r.detectedSourceLanguage with
    | some d =>
      if d ≠ "" then
        if isSupportedLanguage (normalizeLanguageCode (some d)) then fanout d
        else (none, [VCall.google "en"])
      else fanout sourceLanguage
    | none => fanout sourceLanguage

/-- Result of one variant `handleAudioChunk` run. -/
structure VRunResult where
  outcome : Outcome
  fileDeleted : Bool
  calls : List VCall
deriving DecidableEq, Repr

/-- Variant `handleAudioChunk` (part_000 lines 82-124): same shape as the
main one, including the unlink inside the `try`. -/
def handleAudioChunkV (caps : VCaps) : VRunResult :=
  match transcribeAudioV caps with
  | (.error _, cs) => ⟨Outcome.processingError, false, cs⟩
  | (.ok t, cs) =>
    match t with
    | some s =>
      if jsTrimStr s ≠ "" then
        match translateTextV caps s "auto" with
        | (some (tr, lang), cs2) =>
          if lang ≠ "" then
            ⟨Outcome.translated lang s tr, true, cs ++ cs2⟩
          else ⟨Outcome.unsupportedLanguage, true, cs ++ cs2⟩
        | (none, cs2) => ⟨Outcome.unsupportedLanguage, true, cs ++ cs2⟩
      else ⟨Outcome.noValidSpeech, true, cs⟩
    | none => ⟨Outcome.noValidSpeech, true, cs⟩

/-! ### Concrete oracles used by witnesses and counterexamples -/

/-- Concrete variant oracle used by the C10 witness. -/
def vcapsKana : VCaps :=
  ⟨Except.ok "テスト", fun _ _ => Except.ok ⟨"x", some "ja"⟩⟩

/-- Oracle for the C4 witness: Whisper hallucinates a promotional phrase. -/
def capsSubscribe : Caps :=
  ⟨Except.ok "Subscribe to my channel", Except.ok "en",
   fun t => Except.ok ("T-" ++ t)⟩

/-- Oracle for the C4 witness: Whisper returns empty text. -/
def capsEmptyTranscript : Caps :=
  ⟨Except.ok "", Except.ok "en", fun t => Except.ok ("T-" ++ t)⟩

/-- Oracle under which the transcription capability throws. -/
def capsTranscribeThrows : Caps :=
  ⟨Except.error (), Except.ok "en", fun t => Except.ok ("T-" ++ t)⟩

/-- Oracle for the C5 counterexample: detection reports `en`. -/
def capsHintDemo : Caps :=
  ⟨Except.ok "Ciao, come stai?", Except.ok "en",
   fun t => Except.ok ("T-" ++ t)⟩

/-- Oracle for the C2 witness: Italian text, detection replies `it`. -/
def capsC2 : Caps :=
  ⟨Except.ok "Ciao", Except.ok "it", fun t => Except.ok ("T-" ++ t)⟩

/-- Oracle for the C3 witness: the `zh` translation call rejects. -/
def capsC3fail : Caps :=
  ⟨Except.ok "Hello", Except.ok "en",
   fun t => if t = "zh" then Except.error () else Except.ok ("T-" ++ t)⟩

/-- The same oracle without the failure. -/
def capsC3ok : Caps :=
  ⟨Except.ok "Hello", Except.ok "en", fun t => Except.ok ("T-" ++ t)⟩

/-! ### Helper lemmas -/

/-- A successful association-list lookup exhibits a member pair. -/
theorem mem_of_lookup_some {α β : Type} [BEq α] [LawfulBEq α] :
    ∀ (l : List (α × β)) (a : α) (b : β),
      l.lookup a = some b → (a, b) ∈ l := by
  intro l a b
  induction l with
  | nil => intro h; simp at h
  | cons p rest ih =>
    intro h
    rw [List.lookup_cons] at h
    rcases hab : (a == p.1) with _ | _
    · rw [hab] at h
      exact List.mem_cons_of_mem _ (ih h)
    · rw [hab] at h
      have ha : a = p.1 := by exact eq_of_beq hab
      cases h
      subst ha
      exact List.mem_cons_self _ _
  
/-- Every lower-case value of the table is itself outside the table. -/
theorem lowerPairs_vals_fixed :
    lowerPairs.all (fun p => (lowerPairs.lookup p.2).isNone) = true := by
  decide

/-- All table keys lie in the ASCII/Latin-1 uppercase ranges. -/
theorem lowerPairs_keys_bound :
    lowerPairs.all (fun p => 65 ≤ p.1.toNat ∧ p.1.toNat ≤ 222) = true := by
  decide

/-- `jsToLower` is idempotent. -/
theorem jsToLower_idem (c : Char) : jsToLower (jsToLower c) = jsToLower c := by
  unfold jsToLower
  rcases h : lowerPairs.lookup c with _ | d
  · simp [h]
  · have hmem : (c, d) ∈ lowerPairs := mem_of_lookup_some _ _ _ h
    have hfix := (List.all_eq_true.1 lowerPairs_vals_fixed) _ hmem
    simp only [Option.isNone_iff_eq_none] at hfix
    simp [h, hfix]

/-- Characters above the Latin-1 block are fixed by `jsToLower`. -/
theorem jsToLower_fix_high (c : Char) (hc : 222 < c.toNat) :
    jsToLower c = c := by
  unfold jsToLower
  rcases h : lowerPairs.lookup c with _ | d
  · simp
  · have hmem : (c, d) ∈ lowerPairs := mem_of_lookup_some _ _ _ h
    have hb := (List.all_eq_true.1 lowerPairs_keys_bound) _ hmem
    simp only [decide_eq_true_eq] at hb
    omega

/-- `jsLower` is idempotent. -/
theorem jsLower_idem (s : String) : jsLower (jsLower s) = jsLower s := by
  unfold jsLower
  simp [List.map_map, Function.comp_def, jsToLower_idem]

/-- `jsLower` of a nonempty string is nonempty. -/
theorem jsLower_ne_empty (s : String) (hs : s ≠ "") : jsLower s ≠ "" := by
  intro h
  apply hs
  have hdata : (jsLower s).data = ("" : String).data := by rw [h]
  simp only [jsLower] at hdata
  apply String.ext
  simpa using hdata

/-- A non-whitespace member survives `dropWhile isSpaceJS`. -/
theorem mem_dropWhile_of_not_space {c : Char} :
    ∀ {l : List Char}, c ∈ l → isSpaceJS c = false →
      c ∈ l.dropWhile isSpaceJS := by
  intro l
  induction l with
  | nil => intro h; cases h
  | cons a rest ih =>
    intro hmem hns
    rcases List.mem_cons.1 hmem with rfl | htail
    · rw [List.dropWhile_cons, hns]
      exact List.mem_cons_self _ _
    · rw [List.dropWhile_cons]
      rcases ha : isSpaceJS a with _ | _
      · simpa using List.mem_cons_of_mem a (htail)
      · exact ih htail hns

/-- A non-whitespace member survives `jsTrim`. -/
theorem mem_jsTrim_of_not_space {c : Char} {l : List Char}
    (hmem : c ∈ l) (hns : isSpaceJS c = false) : c ∈ jsTrim l := by
  unfold jsTrim
  rw [List.mem_reverse]
  apply mem_dropWhile_of_not_space _ hns
  rw [List.mem_reverse]
  exact mem_dropWhile_of_not_space hmem hns

/-- Characters stored in the accumulator of `splitWordsAux` end up inside
one of the produced words. -/
theorem mem_splitWordsAux_of_mem_acc {c : Char} :
    ∀ (l acc : List Char), c ∈ acc →
      ∃ w ∈ splitWordsAux l acc, c ∈ w := by
  intro l
  induction l with
  | nil =>
    intro acc hacc
    refine ⟨acc.reverse, ?_, List.mem_reverse.2 hacc⟩
    have : acc.isEmpty = false := by
      cases acc with
      | nil => cases hacc
      | cons x xs => rfl
    simp [splitWordsAux, this]
  | cons a rest ih =>
    intro acc hacc
    rcases ha : isSpaceJS a with _ | _
    · simp only [splitWordsAux, ha, Bool.false_eq_true, if_false]
      exact ih (a :: acc) (List.mem_cons_of_mem _ hacc)
    · have hne : acc.isEmpty = false := by
        cases acc with
        | nil => cases hacc
        | cons x xs => rfl
      simp only [splitWordsAux, ha, if_true, hne, Bool.false_eq_true,
        if_false]
      refine ⟨acc.reverse, ?_, List.mem_reverse.2 hacc⟩
      simp
  
/-- Every non-whitespace character of the input lies in one of the words
produced by `splitWordsAux`. -/
theorem mem_splitWordsAux_of_mem {c : Char} :
    ∀ (l acc : List Char), c ∈ l → isSpaceJS c = false →
      ∃ w ∈ splitWordsAux l acc, c ∈ w := by
  intro l
  induction l with
  | nil => intro acc h; cases h
  | cons a rest ih =>
    intro acc hmem hns
    rcases List.mem_cons.1 hmem with rfl | htail
    · simp only [splitWordsAux, hns, Bool.false_eq_true, if_false]
      exact mem_splitWordsAux_of_mem_acc rest (c :: acc)
        (List.mem_cons_self _ _)
    · rcases ha : isSpaceJS a with _ | _
      · simp only [splitWordsAux, ha, Bool.false_eq_true, if_false]
        exact ih (a :: acc) htail hns
      · rcases hacc : acc.isEmpty with _ | _
        · simp only [splitWordsAux, ha, if_true, hacc, Bool.false_eq_true,
            if_false]
          rcases ih [] htail hns with ⟨w, hw, hcw⟩
          exact ⟨w, List.mem_cons_of_mem _ hw, hcw⟩
        · simp only [splitWordsAux, ha, if_true, hacc]
          exact ih [] htail hns

/-- Every non-whitespace character of `l` lies in one of `splitWords l`. -/
theorem mem_splitWords_of_mem {c : Char} {l : List Char}
    (hmem : c ∈ l) (hns : isSpaceJS c = false) :
    ∃ w ∈ splitWords l, c ∈ w :=
  mem_splitWordsAux_of_mem l [] hmem hns

/-- The accented characters of the Italian class lie in the Latin-1 range. -/
theorem italianAccents_bound :
    italianAccents.all (fun a => 192 ≤ a.toNat ∧ a.toNat ≤ 252) = true := by
  decide

/-- A character of one of the supported-script classes (ASCII letter,
Latin-1 accent, CJK ideograph) is not JS whitespace. -/
theorem not_space_of_letterish {ch : Char}
    (h : (97 ≤ ch.toNat ∧ ch.toNat ≤ 122) ∨ (65 ≤ ch.toNat ∧ ch.toNat ≤ 90) ∨
      (192 ≤ ch.toNat ∧ ch.toNat ≤ 252) ∨
      (19968 ≤ ch.toNat ∧ ch.toNat ≤ 40959)) :
    isSpaceJS ch = false := by
  simp only [isSpaceJS, decide_eq_false_iff_not]
  omega

/-- A character of one of the supported-script classes is not a digit. -/
theorem not_digit_of_letterish {ch : Char}
    (h : (97 ≤ ch.toNat ∧ ch.toNat ≤ 122) ∨ (65 ≤ ch.toNat ∧ ch.toNat ≤ 90) ∨
      (192 ≤ ch.toNat ∧ ch.toNat ≤ 252) ∨
      (19968 ≤ ch.toNat ∧ ch.toNat ≤ 40959)) :
    isDigitCh ch = false := by
  simp only [isDigitCh, decide_eq_false_iff_not]
  omega

/-- C7: language-code canonicalization is idempotent for every input —
including `null`/empty input mapping to `null` — and many-to-one on the
Chinese family: every code whose lower-cased form starts with `zh`
normalizes to the single canonical value `zh`. -/
theorem C7_normalize_idempotent_and_chinese_family :
    (∀ x, normalizeLanguageCode (normalizeLanguageCode x) =
      normalizeLanguageCode x) ∧
    normalizeLanguageCode none = none ∧
    normalizeLanguageCode (some "") = none ∧
    (∀ s, strStartsWith (jsLower s) "zh" = true →
      normalizeLanguageCode (some s) = some "zh") := by
  have hzh : ∀ s, strStartsWith (jsLower s) "zh" = true →
      normalizeLanguageCode (some s) = some "zh" := by
    intro s hz
    have hs : s ≠ "" := by
      intro h
      subst h
      simp [jsLower, strStartsWith, List.isPrefixOf] at hz
    simp [normalizeLanguageCode, hs, hz]
  refine ⟨?_, rfl, by decide, hzh⟩
  intro x
  match x with
  | none => rfl
  | some s =>
    by_cases hs : s = ""
    · subst hs
      simp [normalizeLanguageCode]
    · rcases hz : strStartsWith (jsLower s) "zh" with _ | _
      · have h1 : normalizeLanguageCode (some s) = some (jsLower s) := by
          simp [normalizeLanguageCode, hs, hz]
        rw [h1]
        simp [normalizeLanguageCode, jsLower_ne_empty s hs, jsLower_idem,
          hz]
      · rw [hzh s hz]
        decide

/-- C7 witness: concrete Chinese variants all normalize to `zh`, and
normalization is idempotent at a concrete input. -/
theorem C7_witness :
    normalizeLanguageCode (some "zh-CN") = some "zh" ∧
    normalizeLanguageCode (some "ZH") = some "zh" ∧
    normalizeLanguageCode (normalizeLanguageCode (some "zh-TW")) =
      normalizeLanguageCode (some "zh-TW") :=
  ⟨C7_normalize_idempotent_and_chinese_family.2.2.2 "zh-CN" (by decide),
   C7_normalize_idempotent_and_chinese_family.2.2.2 "ZH" (by decide),
   C7_normalize_idempotent_and_chinese_family.1 (some "zh-TW")⟩

/-- C8: the validator rejects inputs that are absent/not textual, and
every input whose cleaned form (trimmed, lower-cased, trailing
`[.,!?;:]` run stripped) is shorter than 2 characters. -/
theorem C8_validator_rejects_absent_or_short :
    isValidTranscription none = false ∧
    (∀ s, (cleanTextOf s).length < 2 →
      isValidTranscription (some s) = false) := by
  refine ⟨rfl, ?_⟩
  intro s hlen
  by_cases hs : s = ""
  · subst hs
    rfl
  · simp [isValidTranscription, hs, hlen]

/-- C8 witness: a one-letter transcription (after punctuation stripping)
is rejected. -/
theorem C8_witness : isValidTranscription (some "a.") = false :=
  C8_validator_rejects_absent_or_short.2 "a." (by decide)

/-- C9: the purely-numeric branch of the single-word rule is unreachable —
when the cleaned text is one purely numeric word, the supported-script
check is already false (so the validator already rejected earlier), hence
rejection at the single-word rule can never come from the numeric test. -/
theorem C9_numeric_single_word_already_rejected :
    ∀ s w, splitWords (cleanTextOf s) = [w] → isNumericWord w = true →
      (hasEnglish (cleanTextOf s) || hasItalian (cleanTextOf s) ||
        hasChinese (cleanTextOf s)) = false ∧
      isValidTranscription (some s) = false := by
  intro s w hsplit hnum
  have hdig : ∀ ch ∈ w, isDigitCh ch = true := by
    simp only [isNumericWord, Bool.and_eq_true] at hnum
    exact fun ch hch => List.all_eq_true.1 hnum.2 ch hch
  have hscript : (hasEnglish (cleanTextOf s) || hasItalian (cleanTextOf s) ||
      hasChinese (cleanTextOf s)) = false := by
    rcases hb : (hasEnglish (cleanTextOf s) || hasItalian (cleanTextOf s) ||
      hasChinese (cleanTextOf s)) with _ | _
    · rfl
    · exfalso
      have hex : ∃ ch ∈ cleanTextOf s,
          (97 ≤ ch.toNat ∧ ch.toNat ≤ 122) ∨
          (65 ≤ ch.toNat ∧ ch.toNat ≤ 90) ∨
          (192 ≤ ch.toNat ∧ ch.toNat ≤ 252) ∨
          (19968 ≤ ch.toNat ∧ ch.toNat ≤ 40959) := by
        rw [Bool.or_eq_true] at hb
        rcases hb with hb2 | hc
        · rw [Bool.or_eq_true] at hb2
          rcases hb2 with he | hi
          · rcases List.any_eq_true.1 he with ⟨ch, hm, hp⟩
            simp only [isAsciiLetter, decide_eq_true_eq] at hp
            exact ⟨ch, hm, by omega⟩
          · rcases List.any_eq_true.1 hi with ⟨ch, hm, hp⟩
            simp only [isAsciiLetter, decide_eq_true_eq] at hp
            rcases hp with hp | hp
            · exact ⟨ch, hm, by omega⟩
            · have hbnd := List.all_eq_true.1 italianAccents_bound ch hp
              simp only [decide_eq_true_eq] at hbnd
              exact ⟨ch, hm, by omega⟩
        · rcases List.any_eq_true.1 hc with ⟨ch, hm, hp⟩
          simp only [isCJK, decide_eq_true_eq] at hp
          exact ⟨ch, hm, by omega⟩
      rcases hex with ⟨ch, hm, hcls⟩
      have hns : isSpaceJS ch = false := not_space_of_letterish hcls
      rcases mem_splitWords_of_mem hm hns with ⟨w2, hw2, hchw2⟩
      rw [hsplit, List.mem_singleton] at hw2
      subst hw2
      have := hdig ch hchw2
      rw [not_digit_of_letterish hcls] at this
      exact Bool.false_ne_true this
  refine ⟨hscript, ?_⟩
  by_cases hs : s = ""
  · subst hs
    rfl
  · by_cases hlen : (cleanTextOf s).length < 2
    · simp [isValidTranscription, hs, hlen]
    · simp [isValidTranscription, hs, hlen, hscript]

/-- C9 witness: the single numeric word `42` fails the script check and
is rejected (before the single-word rule is reached). -/
theorem C9_witness :
    (hasEnglish (cleanTextOf "42") || hasItalian (cleanTextOf "42") ||
      hasChinese (cleanTextOf "42")) = false ∧
    isValidTranscription (some "42") = false :=
  C9_numeric_single_word_already_rejected "42" (String.data "42")
    (by decide) (by decide)

/-- C10: the part_000 variant's validator rejects every text containing at
least one Japanese kana character (hiragana U+3040-309F or katakana
U+30A0-30FF) — even when supported-script characters are also present —
and such an utterance therefore terminates before any Google (detection or
translation) call is made. -/
theorem C10_variant_rejects_kana :
    ∀ s : String, s.data.any isKana = true →
      isValidTranscriptionV (some s) = false ∧
      (∀ caps : VCaps, caps.transcribeRaw = Except.ok s →
        handleAudioChunkV caps =
          ⟨Outcome.noValidSpeech, true, [VCall.transcribe]⟩) := by
  intro s hk
  rcases List.any_eq_true.1 hk with ⟨ch, hmem, hko⟩
  have hkn : 12352 ≤ ch.toNat ∧ ch.toNat ≤ 12543 := by
    simpa [isKana, decide_eq_true_eq] using hko
  have hns : isSpaceJS ch = false := by
    simp only [isSpaceJS, decide_eq_false_iff_not]
    omega
  have hfix : jsToLower ch = ch := jsToLower_fix_high ch (by omega)
  have hmem2 : ch ∈ cleanTextVOf s := by
    unfold cleanTextVOf
    have h3 : ch ∈ jsTrim s.data := mem_jsTrim_of_not_space hmem hns
    have h4 := List.mem_map_of_mem jsToLower h3
    rwa [hfix] at h4
  have hjp : hasJapaneseV (cleanTextVOf s) = true :=
    List.any_eq_true.2 ⟨ch, hmem2, hko⟩
  have hsne : s ≠ "" := by
    intro h
    subst h
    simp at hmem
  have hval : isValidTranscriptionV (some s) = false := by
    by_cases hlen : (cleanTextVOf s).length < 2
    · simp [isValidTranscriptionV, hsne, hlen]
    · simp [isValidTranscriptionV, hsne, hlen, hjp]
  refine ⟨hval, ?_⟩
  intro caps hc
  simp [handleAudioChunkV, transcribeAudioV, hc, hval]

/-- C10 witness: a katakana transcription is rejected by the variant and
its run makes the transcription call only. -/
theorem C10_witness :
    isValidTranscriptionV (some "テスト") = false ∧
    handleAudioChunkV vcapsKana =
      ⟨Outcome.noValidSpeech, true, [VCall.transcribe]⟩ :=
  ⟨(C10_variant_rejects_kana "テスト" (by decide)).1,
   (C10_variant_rejects_kana "テスト" (by decide)).2 vcapsKana rfl⟩

/-! ### Claims about the orchestrator and the fan-out engine -/

/-- A transcription whose trim is empty is rejected by the validator. -/
theorem invalid_of_trim_empty (s : String) (h : jsTrimStr s = "") :
    isValidTranscription (some s) = false := by
  have hdata : jsTrim s.data = [] := by
    have h2 := congrArg String.data h
    simpa [jsTrimStr] using h2
  have hclean : cleanTextOf s = [] := by
    simp [cleanTextOf, hdata, dropTrailingPunct]
  by_cases hs : s = ""
  · subst hs
    rfl
  · simp [isValidTranscription, hs, hclean]

/-- C4: when the transcription capability returns text that is empty,
whitespace-only, or rejected by the validator, the run terminates in the
no-valid-speech branch (the code's single log-only branch covering the
spec's `NoSpeech` and `Rejected` outcomes), the temp file is deleted, and
neither the detection capability nor any translation call is invoked. -/
theorem C4_rejected_transcriptions_make_no_further_calls :
    ∀ (caps : Caps) (s : String), caps.transcribeRaw = Except.ok s →
      (isValidTranscription (some s) = false ∨ jsTrimStr s = "") →
      handleAudioChunk caps =
        ⟨Outcome.noValidSpeech, true, [Call.transcribe]⟩ := by
  intro caps s hc hdis
  have hinv : isValidTranscription (some s) = false :=
    hdis.elim id (invalid_of_trim_empty s)
  simp [handleAudioChunk, transcribeAudio, hc, hinv]

/-- C4 witness: a hallucinated `Subscribe to my channel` and an empty
transcription both terminate with only the transcription call made. -/
theorem C4_witness :
    handleAudioChunk capsSubscribe =
      ⟨Outcome.noValidSpeech, true, [Call.transcribe]⟩ ∧
    handleAudioChunk capsEmptyTranscript =
      ⟨Outcome.noValidSpeech, true, [Call.transcribe]⟩ :=
  ⟨C4_rejected_transcriptions_make_no_further_calls capsSubscribe
      "Subscribe to my channel" rfl (Or.inl (by decide)),
   C4_rejected_transcriptions_make_no_further_calls capsEmptyTranscript
      "" rfl (Or.inr (by decide))⟩

/-- Every run whose transcription call does not throw reaches the unlink:
the companion fact to the C1 bug below. -/
theorem fileDeleted_of_transcribe_ok (caps : Caps) (s : String)
    (hc : caps.transcribeRaw = Except.ok s) :
    (handleAudioChunk caps).fileDeleted = true := by
  rcases hv : isValidTranscription (some s) with _ | _
  · simp [handleAudioChunk, transcribeAudio, hc, hv]
  · by_cases htr : jsTrimStr s ≠ ""
    · rcases htt : translateText caps s "auto" with ⟨r, cs2⟩
      rcases r with _ | ⟨tr, lang⟩
      · simp [handleAudioChunk, transcribeAudio, hc, hv, htr, htt]
      · by_cases hl : lang ≠ ""
        · simp [handleAudioChunk, transcribeAudio, hc, hv, htr, htt, hl]
        · simp [handleAudioChunk, transcribeAudio, hc, hv, htr, htt, hl]
    · simp [handleAudioChunk, transcribeAudio, hc, hv, htr]

/-- C1 (code bug): when the transcription capability throws, control jumps
to the `catch` block and `fs.unlinkSync(tempFilePath)` — which sits inside
the `try`, after the pipeline — is never reached: the utterance's temp
file is NOT deleted on the capability-failure exit path. -/
theorem C1_temp_file_leaks_on_transcription_failure :
    (handleAudioChunk capsTranscribeThrows).fileDeleted = false ∧
    (handleAudioChunk capsTranscribeThrows).outcome =
      Outcome.processingError := by
  decide

/-- C5 counterexample: with the hint `it` — present and not `auto` — the
fan-out still invokes the external detection capability, and the detected
language is the capability's reply `en`, not the (normalized) hint. -/
theorem C5_counterexample_hint_not_trusted :
    Call.detect ∈ (translateText capsHintDemo "Ciao, come stai?" "it").snd ∧
    (translateText capsHintDemo "Ciao, come stai?" "it").fst =
      some ([("it", "T-it"), ("zh", "T-zh"), ("en", "Ciao, come stai?")],
        "en") := by
  decide

/-- C5 amended: the source-language hint is never consulted for detection:
`translateText` behaves identically for every hint and always invokes the
external detection capability; a present non-`auto` hint is forwarded only
to the transcription capability. -/
theorem C5_amended_hint_ignored_by_detector :
    (∀ (caps : Caps) (text hint : String),
      translateText caps text hint = translateText caps text "auto" ∧
      Call.detect ∈ (translateText caps text hint).snd) ∧
    (∀ l : String, l ≠ "" → l ≠ "auto" →
      transcriptionLanguageParam (some l) = some l) := by
  constructor
  · intro caps text hint
    refine ⟨rfl, ?_⟩
    rcases hd : caps.detectRaw with _ | raw
    · simp [translateText, detectLanguageWithOpenAI, hd]
    · simp only [translateText, detectLanguageWithOpenAI, hd]
      split_ifs <;> simp
  · intro l h1 h2
    simp [transcriptionLanguageParam, h1, h2]

/-- C5 amended witness: at the concrete hint `it` the fan-out equals the
`auto` run and the transcription parameter forwards the hint. -/
theorem C5_amended_witness :
    translateText capsHintDemo "Ciao, come stai?" "it" =
      translateText capsHintDemo "Ciao, come stai?" "auto" ∧
    transcriptionLanguageParam (some "it") = some "it" :=
  ⟨(C5_amended_hint_ignored_by_detector.1 capsHintDemo "Ciao, come stai?"
      "it").1,
   C5_amended_hint_ignored_by_detector.2 "it" (by decide) (by decide)⟩

/-- C6 counterexample: the cleaned capability reply `zhen` contains `zh`
yet is mapped to `en` — the English substring check runs first — refuting
"any code containing `zh` maps to `zh`". -/
theorem C6_counterexample_zhen_maps_to_en :
    containsSubstr (gptCleanReply "zhen") (String.data "zh") = true ∧
    mapDetectedLang "zhen" = "en" ∧ mapDetectedLang "zhen" ≠ "zh" := by
  decide

/-- C6 amended: after lower-casing and stripping to `[a-z-]`, a reply
containing `zh` or `chi` maps to the canonical `zh` provided it contains
neither `en` nor `it` (those earlier substring checks take precedence). -/
theorem C6_amended_zh_mapping_when_no_en_it :
    ∀ raw : String,
      containsSubstr (gptCleanReply raw) (String.data "en") = false →
      containsSubstr (gptCleanReply raw) (String.data "it") = false →
      (containsSubstr (gptCleanReply raw) (String.data "zh") = true ∨
        containsSubstr (gptCleanReply raw) (String.data "chi") = true) →
      mapDetectedLang raw = "zh" := by
  intro raw hen hit hz
  rcases hz with hz | hz <;> simp [mapDetectedLang, hen, hit, hz]

/-- C6 amended witness: the noisy reply `ZH (Mandarin)` maps to `zh`. -/
theorem C6_amended_witness : mapDetectedLang "ZH (Mandarin)" = "zh" :=
  C6_amended_zh_mapping_when_no_en_it "ZH (Mandarin)" (by decide)
    (by decide) (Or.inl (by decide))

/-- The key of each fan-out slot is its target, on both branches. -/
theorem translateOne_fst_fst (caps : Caps) (text detected target : String) :
    (translateOne caps text detected target).fst.fst = target := by
  unfold translateOne
  split
  · rfl
  · rcases h : caps.translateRaw target with _ | tr <;> simp [h]

/-- A source-equal target's slot is the original text with no call. -/
theorem translateOne_same (caps : Caps) (text detected target : String)
    (h : normalizeLanguageCode (some detected) =
      normalizeLanguageCode (some target)) :
    translateOne caps text detected target = ((target, text), []) := by
  unfold translateOne
  rw [if_pos h]

/-- A failing non-source target's slot is the error sentinel. -/
theorem translateOne_fail (caps : Caps) (text detected target : String)
    (hne : normalizeLanguageCode (some detected) ≠
      normalizeLanguageCode (some target))
    (hf : caps.translateRaw target = Except.error ()) :
    translateOne caps text detected target =
      ((target, translationErrorSentinel), [Call.translate target]) := by
  unfold translateOne
  rw [if_neg hne, hf]

/-- A slot only depends on the oracle's answer for its own target. -/
theorem translateOne_congr (caps caps2 : Caps) (text detected target : String)
    (h : caps.translateRaw target = caps2.translateRaw target) :
    translateOne caps text detected target =
      translateOne caps2 text detected target := by
  unfold translateOne
  rw [h]

/-- Any call recorded by a slot is a translation call for its target. -/
theorem mem_translateOne_snd {caps : Caps} {text detected target : String}
    {c : Call} (h : c ∈ (translateOne caps text detected target).snd) :
    c = Call.translate target := by
  unfold translateOne at h
  split at h
  · cases h
  · rcases hr : caps.translateRaw target with _ | tr <;> rw [hr] at h <;>
      simpa using h

/-- Value shape of a successful fan-out: the three slots in configured
order and the mapped detected language. -/
theorem translateText_fst_ok (caps : Caps) (text hint raw : String)
    (hd : caps.detectRaw = Except.ok raw)
    (hne : mapDetectedLang raw ≠ "")
    (hsup : isSupportedLanguage
      (normalizeLanguageCode (some (mapDetectedLang raw))) = true) :
    (translateText caps text hint).fst =
      some ([(translateOne caps text (mapDetectedLang raw) "it").fst,
             (translateOne caps text (mapDetectedLang raw) "zh").fst,
             (translateOne caps text (mapDetectedLang raw) "en").fst],
        mapDetectedLang raw) := by
  simp [translateText, detectLanguageWithOpenAI, hd, hne, hsup,
    TARGET_LANGUAGES]

/-- Call-log shape of a successful fan-out. -/
theorem translateText_snd_ok (caps : Caps) (text hint raw : String)
    (hd : caps.detectRaw = Except.ok raw)
    (hne : mapDetectedLang raw ≠ "")
    (hsup : isSupportedLanguage
      (normalizeLanguageCode (some (mapDetectedLang raw))) = true) :
    (translateText caps text hint).snd =
      Call.detect ::
        ((translateOne caps text (mapDetectedLang raw) "it").snd ++
         ((translateOne caps text (mapDetectedLang raw) "zh").snd ++
          (translateOne caps text (mapDetectedLang raw) "en").snd)) := by
  simp [translateText, detectLanguageWithOpenAI, hd, hne, hsup,
    TARGET_LANGUAGES]

/-- A fan-out that returns a map had a successful, supported detection. -/
theorem translateText_fst_some_inv (caps : Caps) (text hint : String)
    (m : List (String × String)) (lang : String)
    (h : (translateText caps text hint).fst = some (m, lang)) :
    ∃ raw, caps.detectRaw = Except.ok raw ∧ mapDetectedLang raw ≠ "" ∧
      isSupportedLanguage
        (normalizeLanguageCode (some (mapDetectedLang raw))) = true ∧
      lang = mapDetectedLang raw := by
  rcases hd : caps.detectRaw with _ | raw
  · rw [translateText] at h
    rw [detectLanguageWithOpenAI, hd] at h
    simp at h
  · refine ⟨raw, rfl, ?_⟩
    by_cases hne : mapDetectedLang raw = ""
    · rw [translateText, detectLanguageWithOpenAI, hd] at h
      simp [hne] at h
    · by_cases hsup : isSupportedLanguage
        (normalizeLanguageCode (some (mapDetectedLang raw))) = true
      · refine ⟨hne, hsup, ?_⟩
        rw [translateText_fst_ok caps text hint raw hd hne hsup] at h
        simp only [Option.some.injEq, Prod.mk.injEq] at h
        exact h.2.symm
      · rw [translateText, detectLanguageWithOpenAI, hd] at h
        simp [hne, hsup] at h

/-- C2: a successful fan-out returns a map whose key list is exactly the
fixed configured `TARGET_LANGUAGES` — independent of the input — and every
target whose canonicalized code equals the canonicalized detected source
language holds the input text verbatim, with no translation call made for
that target. -/
theorem C2_fanout_keys_fixed_and_source_slot_verbatim :
    ∀ (caps : Caps) (text hint : String) (m : List (String × String))
      (lang : String),
      (translateText caps text hint).fst = some (m, lang) →
      m.map Prod.fst = TARGET_LANGUAGES ∧
      (∀ t ∈ TARGET_LANGUAGES,
        normalizeLanguageCode (some lang) = normalizeLanguageCode (some t) →
        m.lookup t = some text ∧
        Call.translate t ∉ (translateText caps text hint).snd) := by
  intro caps text hint m lang h
  obtain ⟨raw, hd, hne, hsup, hlang⟩ :=
    translateText_fst_some_inv caps text hint m lang h
  subst hlang
  rcases h1 : translateOne caps text (mapDetectedLang raw) "it"
    with ⟨⟨k1, v1⟩, cs1⟩
  rcases h2 : translateOne caps text (mapDetectedLang raw) "zh"
    with ⟨⟨k2, v2⟩, cs2⟩
  rcases h3 : translateOne caps text (mapDetectedLang raw) "en"
    with ⟨⟨k3, v3⟩, cs3⟩
  have hk1 : k1 = "it" := by
    have hx := translateOne_fst_fst caps text (mapDetectedLang raw) "it"
    rw [h1] at hx
    exact hx
  have hk2 : k2 = "zh" := by
    have hx := translateOne_fst_fst caps text (mapDetectedLang raw) "zh"
    rw [h2] at hx
    exact hx
  have hk3 : k3 = "en" := by
    have hx := translateOne_fst_fst caps text (mapDetectedLang raw) "en"
    rw [h3] at hx
    exact hx
  subst hk1
  subst hk2
  subst hk3
  have hcs1 : ∀ c ∈ cs1, c = Call.translate "it" := by
    intro c hc
    have hc2 : c ∈ (translateOne caps text (mapDetectedLang raw) "it").snd := by
      rw [h1]
      exact hc
    exact mem_translateOne_snd hc2
  have hcs2 : ∀ c ∈ cs2, c = Call.translate "zh" := by
    intro c hc
    have hc2 : c ∈ (translateOne caps text (mapDetectedLang raw) "zh").snd := by
      rw [h2]
      exact hc
    exact mem_translateOne_snd hc2
  have hcs3 : ∀ c ∈ cs3, c = Call.translate "en" := by
    intro c hc
    have hc2 : c ∈ (translateOne caps text (mapDetectedLang raw) "en").snd := by
      rw [h3]
      exact hc
    exact mem_translateOne_snd hc2
  rw [translateText_fst_ok caps text hint raw hd hne hsup, h1, h2, h3] at h
  simp only [Option.some.injEq, Prod.mk.injEq, and_true] at h
  subst h
  refine ⟨by simp [TARGET_LANGUAGES], ?_⟩
  intro t ht hnorm
  rw [translateText_snd_ok caps text hint raw hd hne hsup, h1, h2, h3]
  simp only [TARGET_LANGUAGES, List.mem_cons, List.not_mem_nil,
    or_false] at ht
  rcases ht with rfl | rfl | rfl
  · have hs := translateOne_same caps text (mapDetectedLang raw) "it" hnorm
    rw [h1] at hs
    simp only [Prod.mk.injEq] at hs
    obtain ⟨⟨-, hv⟩, hcs⟩ := hs
    subst hv
    subst hcs
    refine ⟨by simp [List.lookup], ?_⟩
    intro hmem
    simp only [List.mem_cons, List.mem_append, List.not_mem_nil,
      false_or] at hmem
    rcases hmem with hmem | hmem | hmem
    · cases hmem
    · have := hcs2 _ hmem
      simp at this
    · have := hcs3 _ hmem
      simp at this
  · have hs := translateOne_same caps text (mapDetectedLang raw) "zh" hnorm
    rw [h2] at hs
    simp only [Prod.mk.injEq] at hs
    obtain ⟨⟨-, hv⟩, hcs⟩ := hs
    subst hv
    subst hcs
    refine ⟨by simp [List.lookup], ?_⟩
    intro hmem
    simp only [List.mem_cons, List.mem_append, List.not_mem_nil,
      false_or] at hmem
    rcases hmem with hmem | hmem | hmem
    · cases hmem
    · have := hcs1 _ hmem
      simp at this
    · have := hcs3 _ hmem
      simp at this
  · have hs := translateOne_same caps text (mapDetectedLang raw) "en" hnorm
    rw [h3] at hs
    simp only [Prod.mk.injEq] at hs
    obtain ⟨⟨-, hv⟩, hcs⟩ := hs
    subst hv
    subst hcs
    refine ⟨by simp [List.lookup], ?_⟩
    intro hmem
    simp only [List.mem_cons, List.mem_append, List.not_mem_nil,
      or_false] at hmem
    rcases hmem with hmem | hmem | hmem
    · cases hmem
    · have := hcs1 _ hmem
      simp at this
    · have := hcs2 _ hmem
      simp at this

/-- C2 witness: at a concrete run the keys are the configured targets and
the source-equal slot `it` carries the input verbatim with no call. -/
theorem C2_witness :
    ([("it", "Ciao"), ("zh", "T-zh"), ("en", "T-en")] :
        List (String × String)).map Prod.fst = TARGET_LANGUAGES ∧
    ([("it", "Ciao"), ("zh", "T-zh"), ("en", "T-en")] :
        List (String × String)).lookup "it" = some "Ciao" ∧
    Call.translate "it" ∉ (translateText capsC2 "Ciao" "auto").snd := by
  have h := C2_fanout_keys_fixed_and_source_slot_verbatim capsC2 "Ciao"
    "auto" [("it", "Ciao"), ("zh", "T-zh"), ("en", "T-en")] "it"
    (by decide)
  have h2 := h.2 "it" (by decide) (by decide)
  exact ⟨h.1, h2.1, h2.2⟩

/-- C3: when exactly one target's translation call fails — `caps` fails at
`t0` while agreeing with the no-failure oracle `caps2` everywhere else —
the fan-out still returns a complete map over the configured targets (it
does not raise), the failing slot holds the `[Translation Error]`
sentinel, and every other slot equals its value in the no-failure run. -/
theorem C3_single_target_failure_is_isolated :
    ∀ (caps caps2 : Caps) (text hint t0 : String)
      (m : List (String × String)) (lang : String),
      caps.detectRaw = caps2.detectRaw →
      t0 ∈ TARGET_LANGUAGES →
      caps.translateRaw t0 = Except.error () →
      (∀ t, t ≠ t0 → caps.translateRaw t = caps2.translateRaw t) →
      (∀ t ∈ TARGET_LANGUAGES, t ≠ t0 →
        caps2.translateRaw t ≠ Except.error ()) →
      (translateText caps2 text hint).fst = some (m, lang) →
      normalizeLanguageCode (some lang) ≠ normalizeLanguageCode (some t0) →
      ∃ m', (translateText caps text hint).fst = some (m', lang) ∧
        m'.map Prod.fst = TARGET_LANGUAGES ∧
        m'.lookup t0 = some translationErrorSentinel ∧
        (∀ t ∈ TARGET_LANGUAGES, t ≠ t0 → m'.lookup t = m.lookup t) := by
  intro caps caps2 text hint t0 m lang hdet ht0 hfail hagree _hok h hnz
  obtain ⟨raw, hd2, hne, hsup, hlang⟩ :=
    translateText_fst_some_inv caps2 text hint m lang h
  subst hlang
  have hd : caps.detectRaw = Except.ok raw := by
    rw [hdet]
    exact hd2
  rcases h1 : translateOne caps2 text (mapDetectedLang raw) "it"
    with ⟨⟨k1, v1⟩, cs1⟩
  rcases h2 : translateOne caps2 text (mapDetectedLang raw) "zh"
    with ⟨⟨k2, v2⟩, cs2⟩
  rcases h3 : translateOne caps2 text (mapDetectedLang raw) "en"
    with ⟨⟨k3, v3⟩, cs3⟩
  have hk1 : k1 = "it" := by
    have hx := translateOne_fst_fst caps2 text (mapDetectedLang raw) "it"
    rw [h1] at hx
    exact hx
  have hk2 : k2 = "zh" := by
    have hx := translateOne_fst_fst caps2 text (mapDetectedLang raw) "zh"
    rw [h2] at hx
    exact hx
  have hk3 : k3 = "en" := by
    have hx := translateOne_fst_fst caps2 text (mapDetectedLang raw) "en"
    rw [h3] at hx
    exact hx
  subst hk1
  subst hk2
  subst hk3
  rw [translateText_fst_ok caps2 text hint raw hd2 hne hsup, h1, h2, h3]
    at h
  simp only [Option.some.injEq, Prod.mk.injEq, and_true] at h
  subst h
  have hff := translateOne_fail caps text (mapDetectedLang raw) t0 hnz hfail
  simp only [TARGET_LANGUAGES, List.mem_cons, List.not_mem_nil,
    or_false] at ht0
  rcases ht0 with rfl | rfl | rfl
  · have ha2 := translateOne_congr caps caps2 text (mapDetectedLang raw)
      "zh" (hagree "zh" (by decide))
    have ha3 := translateOne_congr caps caps2 text (mapDetectedLang raw)
      "en" (hagree "en" (by decide))
    refine ⟨[("it", translationErrorSentinel), ("zh", v2), ("en", v3)],
      ?_, by simp [TARGET_LANGUAGES], by simp [List.lookup], ?_⟩
    · rw [translateText_fst_ok caps text hint raw hd hne hsup, hff, ha2,
        ha3, h2, h3]
    · intro t ht htne
      simp only [TARGET_LANGUAGES, List.mem_cons, List.not_mem_nil,
        or_false] at ht
      rcases ht with rfl | rfl | rfl
      · exact absurd rfl htne
      · simp [List.lookup]
      · simp [List.lookup]
  · have ha1 := translateOne_congr caps caps2 text (mapDetectedLang raw)
      "it" (hagree "it" (by decide))
    have ha3 := translateOne_congr caps caps2 text (mapDetectedLang raw)
      "en" (hagree "en" (by decide))
    refine ⟨[("it", v1), ("zh", translationErrorSentinel), ("en", v3)],
      ?_, by simp [TARGET_LANGUAGES], by simp [List.lookup], ?_⟩
    · rw [translateText_fst_ok caps text hint raw hd hne hsup, hff, ha1,
        ha3, h1, h3]
    · intro t ht htne
      simp only [TARGET_LANGUAGES, List.mem_cons, List.not_mem_nil,
        or_false] at ht
      rcases ht with rfl | rfl | rfl
      · simp [List.lookup]
      · exact absurd rfl htne
      · simp [List.lookup]
  · have ha1 := translateOne_congr caps caps2 text (mapDetectedLang raw)
      "it" (hagree "it" (by decide))
    have ha2 := translateOne_congr caps caps2 text (mapDetectedLang raw)
      "zh" (hagree "zh" (by decide))
    refine ⟨[("it", v1), ("zh", v2), ("en", translationErrorSentinel)],
      ?_, by simp [TARGET_LANGUAGES], by simp [List.lookup], ?_⟩
    · rw [translateText_fst_ok caps text hint raw hd hne hsup, hff, ha1,
        ha2, h1, h2]
    · intro t ht htne
      simp only [TARGET_LANGUAGES, List.mem_cons, List.not_mem_nil,
        or_false] at ht
      rcases ht with rfl | rfl | rfl
      · simp [List.lookup]
      · simp [List.lookup]
      · exact absurd rfl htne

/-- C3 witness: with only the `zh` call failing, the fan-out still covers
all targets, `zh` degrades to the sentinel, and `it`/`en` match the
no-failure run. -/
theorem C3_witness :
    ∃ m', (translateText capsC3fail "Hello" "auto").fst =
        some (m', "en") ∧
      m'.map Prod.fst = TARGET_LANGUAGES ∧
      m'.lookup "zh" = some translationErrorSentinel ∧
      (∀ t ∈ TARGET_LANGUAGES, t ≠ "zh" →
        m'.lookup t =
          ([("it", "T-it"), ("zh", "T-zh"), ("en", "Hello")] :
            List (String × String)).lookup t) :=
  C3_single_target_failure_is_isolated capsC3fail capsC3ok "Hello" "auto"
    "zh" [("it", "T-it"), ("zh", "T-zh"), ("en", "Hello")] "en" rfl
    (by decide) rfl
    (by
      intro t ht
      simp [capsC3fail, capsC3ok, ht])
    (by
      intro t _ _
      simp [capsC3ok])
    (by decide) (by decide)

/-! ### Model sanity checks (spec section 8 examples) -/

/-- Happy path: an Italian utterance is transcribed, detected as `it`,
fanned out to the fixed targets (the `it` slot verbatim, no call), and
the temp file is deleted. -/
theorem sanity_pipeline_happy_path :
    handleAudioChunk ⟨Except.ok "Ciao, come stai?", Except.ok "it",
      fun t => Except.ok ("T-" ++ t)⟩ =
    ⟨Outcome.translated "it" "Ciao, come stai?"
      [("it", "Ciao, come stai?"), ("zh", "T-zh"), ("en", "T-en")], true,
      [Call.transcribe, Call.detect, Call.translate "zh",
       Call.translate "en"]⟩ := by
  decide

/-- Validator fixed points from the spec's test list. -/
theorem sanity_validator_examples :
    isValidTranscription (some "Hello, how are you today?") = true ∧
    isValidTranscription (some "thanks for watching") = false ∧
    isValidTranscription (some "aaaaaa") = false ∧
    isValidTranscription (some "你好吗朋友") = true := by
  decide
